import Mathlib

/-!
Verification of the WhereTo recommendation core against its source
(`backend/intent.py`, `backend/places_api.py`, `backend/ranking.py`).

The Python dictionaries produced by `search_nearby` are modelled by the
`Place` structure; the transient `"_score"`/`"_reason"` entries attached and
removed by `rank` are modelled by the `MPlace` structure whose `score` and
`reason` fields are `none` exactly when the corresponding dict key is absent.
Rational numbers stand in for Python floats (all constants in the scoring
rules are decimal literals, so every score is an exact rational), and real
numbers are used for the trigonometric haversine computation.
-/

namespace WhereTo

/-- A venue record as constructed by `search_nearby` in `places_api.py`
(lines 101-110 / 161-170): every field materialised with its `.get` default,
`geometry` reduced to its optional `location` lat/lng pair, and `distance_m`
attached at construction (`some` of the computed or sentinel value). -/
structure Place where
  name : String
  place_id : String
  type : String
  rating : Option ℚ
  user_ratings_total : ℕ
  open_now : Bool
  vicinity : String
  geometry : Option (ℚ × ℚ)
  distance_m : Option ℤ
  deriving DecidableEq

/-- `ranking.py` `calculate_scene_bias`: +0.6 per independent scene rule. -/
def calculate_scene_bias (place : Place) (scene_tags : List String) : ℚ :=
  let place_type := place.type
  let b0 : ℚ := 0
  let b1 := if "night" ∈ scene_tags ∧ place_type ∈ (["bar", "night_club"] : List String) then
    b0 + 0.6 else b0
  let b2 := if "outdoors" ∈ scene_tags ∧ place_type ∈ (["park", "cafe"] : List String) then
    b1 + 0.6 else b1
  let b3 := if "indoors" ∈ scene_tags ∧ place_type ∈ (["library", "cafe"] : List String) then
    b2 + 0.6 else b2
  let b4 := if "day" ∈ scene_tags ∧ place_type ∈ (["park", "cafe"] : List String) then
    b3 + 0.6 else b3
  b4

/-- `ranking.py` `is_closing_soon`: hard-coded `False` placeholder. -/
def is_closing_soon (_ : Place) : Bool := false

/-- `ranking.py` `calculate_score`.  The `place.get("distance_m", 9999)` and
`place.get("rating")` accesses become `Option` reads; Python's `if rating:`
truthiness test is false for both `None` and `0.0`. -/
def calculate_score (place : Place) (_intent : String) (scene_tags : List String) : ℚ :=
  let s0 : ℚ := 0.0
  let distance_m := place.distance_m.getD 9999
  let s1 := if distance_m ≤ 1000 then s0 + (1000 - (distance_m : ℚ)) / 500.0 else s0 + 0.1
  let s2 := if place.open_now then s1 + 2.0 else s1
  let s3 := match place.rating with
    | none => s2
    | some rating =>
      if rating ≠ 0 then
        if rating ≥ 4.3 then s2 + 0.5 else if rating ≥ 4.0 then s2 + 0.25 else s2
      else s2
  let s4 := s3 + calculate_scene_bias place scene_tags
  let s5 := if is_closing_soon place then s4 - 0.5 else s4
  s5

/-- `ranking.py` `matches_scene`: boolean collapse of the scene-rule table. -/
def matches_scene (place : Place) (scene_tags : List String) : Bool :=
  let place_type := place.type
  decide ("night" ∈ scene_tags ∧ place_type ∈ (["bar", "night_club"] : List String)) ||
  decide ("outdoors" ∈ scene_tags ∧ place_type ∈ (["park", "cafe"] : List String)) ||
  decide ("indoors" ∈ scene_tags ∧ place_type ∈ (["library", "cafe"] : List String)) ||
  decide ("day" ∈ scene_tags ∧ place_type ∈ (["park", "cafe"] : List String))

/-- Models Python's float-to-string conversion (`f"{rating}"`) for the
non-negative one-decimal rating values the places directory produces
(for example `4.5 ↦ "4.5"` and `4.0 ↦ "4.0"`, exactly as Python prints them). -/
def pyFloatStr (q : ℚ) : String :=
  let t := q * 10
  if t.den = 1 ∧ 0 ≤ t.num then toString (t.num / 10) ++ "." ++ toString (t.num % 10)
  else toString q

/-- `ranking.py` `generate_reason`: the bullet-joined reason segments, in the
source's fixed order, each included only if applicable. -/
def generate_reason (place : Place) (scene_tags : List String) : String :=
  let distance_m := place.distance_m.getD 9999
  let r1 : List String :=
    if distance_m < 1000 then ["Close (" ++ toString distance_m ++ "m)"]
    else [toString distance_m ++ "m away"]
  let r2 := if place.open_now then r1 ++ ["open now"] else r1
  let r3 := match place.rating with
    | none => r2
    | some rating => if rating ≠ 0 then r2 ++ [pyFloatStr rating ++ "★"] else r2
  let r4 := if matches_scene place scene_tags then r3 ++ ["matches your vibe"] else r3
  let r5 := if is_closing_soon place then r4 ++ ["closing soon"] else r4
  String.intercalate " • " r5

/-- A `Place` dict together with its transient `"_score"` and `"_reason"`
entries; a field is `none` exactly when the dict key is absent. -/
structure MPlace where
  base : Place
  score : Option ℚ
  reason : Option String
  deriving DecidableEq

/-- The scoring loop of `rank` (lines 23-25): every input dict, tagged with its
list position, receives its `"_score"` and `"_reason"` entries. -/
def annotate (intent : String) (scene_tags : List String) (places : List Place) :
    List (ℕ × MPlace) :=
  places.enum.map fun ip =>
    (ip.1, ⟨ip.2, some (calculate_score ip.2 intent scene_tags),
      some (generate_reason ip.2 scene_tags)⟩)

/-- The order realised by Python's `sorted(places, key=lambda x: x["_score"],
reverse=True)`: Python's sort is stable, so the resulting sequence is ordered
by attached score descending with ties kept in original list position. -/
def rankRel (a b : ℕ × MPlace) : Prop :=
  b.2.score.getD 0 < a.2.score.getD 0 ∨
    (a.2.score.getD 0 = b.2.score.getD 0 ∧ a.1 ≤ b.1)

instance rankRelDecidable : DecidableRel rankRel := fun a b => by
  unfold rankRel; infer_instance

instance rankRelTotal : IsTotal (ℕ × MPlace) rankRel := by
  constructor
  intro a b
  unfold rankRel
  rcases lt_trichotomy (a.2.score.getD 0) (b.2.score.getD 0) with h | h | h
  · exact Or.inr (Or.inl h)
  · rcases Nat.le_total a.1 b.1 with hn | hn
    · exact Or.inl (Or.inr ⟨h, hn⟩)
    · exact Or.inr (Or.inr ⟨h.symm, hn⟩)
  · exact Or.inl (Or.inl h)

instance rankRelTrans : IsTrans (ℕ × MPlace) rankRel := by
  constructor
  intro a b c hab hbc
  unfold rankRel at *
  rcases hab with h1 | ⟨h1, h1i⟩ <;> rcases hbc with h2 | ⟨h2, h2i⟩
  · exact Or.inl (h2.trans h1)
  · exact Or.inl (h2 ▸ h1)
  · exact Or.inl (h1 ▸ h2)
  · exact Or.inr ⟨h1.trans h2, h1i.trans h2i⟩

/-- The sorted working list of `rank` (line 28), on position-tagged dicts. -/
def sortedPlaces (intent : String) (scene_tags : List String) (places : List Place) :
    List (ℕ × MPlace) :=
  List.insertionSort rankRel (annotate intent scene_tags places)

/-- Original list positions of the top 3 of the sorted order: exactly the
dicts from which `rank` pops `"_score"` and `"_reason"` (lines 31-33). -/
def top3Idx (intent : String) (scene_tags : List String) (places : List Place) : List ℕ :=
  ((sortedPlaces intent scene_tags places).take 3).map (·.1)

/-- `ranking.py` `rank`: empty guard, score/annotate every dict, stable sort
descending by `"_score"`, pop both transient keys from the first three of the
sorted order, return those first three. -/
def rank (places : List Place) (intent : String) (scene_tags : List String) : List MPlace :=
  if places.isEmpty then []
  else ((sortedPlaces intent scene_tags places).take 3).map fun x => ⟨x.2.base, none, none⟩

/-- The state of the *input* list after `rank` returns.  The sorted list holds
the same dict objects as the input list, so popping the transient keys from
the top three sorted dicts mutates those same objects inside the input list;
every other input dict keeps the `"_score"`/`"_reason"` entries attached by
the scoring loop. -/
def rankAfter (places : List Place) (intent : String) (scene_tags : List String) :
    List MPlace :=
  if places.isEmpty then places.map fun p => ⟨p, none, none⟩
  else
    places.enum.map fun ip =>
      if ip.1 ∈ top3Idx intent scene_tags places then ⟨ip.2, none, none⟩
      else ⟨ip.2, some (calculate_score ip.2 intent scene_tags),
        some (generate_reason ip.2 scene_tags)⟩

/-- The round-trip candidate of the specification's §8 test vector. -/
def cand420 : Place :=
  { name := "Blue Bottle Coffee"
    place_id := "pid-420"
    type := "cafe"
    rating := some 4.5
    user_ratings_total := 120
    open_now := true
    vicinity := "San Francisco"
    geometry := none
    distance_m := some 420 }

/-- C2: the specification's round-trip vector: distance 420 m, open,
rating 4.5, category `cafe`, scene tag `indoors` scores
`(1000-420)/500 + 2.0 + 0.5 + 0.6 = 4.26`, and the reason generator
produces exactly the expected bullet string. -/
theorem cand420_score_and_reason :
    calculate_score cand420 "quiet_study" ["indoors"] = (1000 - 420) / 500 + 2.0 + 0.5 + 0.6 ∧
      calculate_score cand420 "quiet_study" ["indoors"] = 4.26 ∧
      generate_reason cand420 ["indoors"] =
        "Close (420m) • open now • 4.5★ • matches your vibe" := by
  refine ⟨?_, ?_, ?_⟩
  · simp [calculate_score, calculate_scene_bias, is_closing_soon, cand420]
    norm_num
  · simp [calculate_score, calculate_scene_bias, is_closing_soon, cand420]
    norm_num
  · simp [generate_reason, matches_scene, is_closing_soon, pyFloatStr, cand420]
    norm_num
    rfl

/-- C1 (code bug): `rank` pops `"_reason"` together with `"_score"` from the
three dicts it returns (ranking.py lines 31-33), so the returned candidates
carry no reason annotation at all, although a reason string was generated —
contradicting the contract (and `rank`'s own docstring example) that each
returned candidate is annotated with a human-readable reason. -/
theorem rank_strips_reason_from_output :
    rank [cand420] "quiet_study" ["indoors"] = [⟨cand420, none, none⟩] ∧
      generate_reason cand420 ["indoors"] =
        "Close (420m) • open now • 4.5★ • matches your vibe" := by
  refine ⟨rfl, ?_⟩
  simp [generate_reason, matches_scene, is_closing_soon, pyFloatStr, cand420]
  norm_num
  rfl

lemma mem_sortedPlaces_score (intent : String) (scene_tags : List String)
    (places : List Place) :
    ∀ x ∈ sortedPlaces intent scene_tags places,
      x.2.score = some (calculate_score x.2.base intent scene_tags) := by
  intro x hx
  have hx' : x ∈ annotate intent scene_tags places := by
    simpa [sortedPlaces] using hx
  simp only [annotate, List.mem_map] at hx'
  obtain ⟨ip, _, rfl⟩ := hx'
  rfl

/-- C6: `rank` on `[]` returns `[]`; it always returns at most 3 items; the
recomputed total scores of the returned items are in descending order; every
returned item carries neither `"_score"` nor `"_reason"`; and the underlying
sorted working list is ordered by score descending with ties broken by input
position (the stable descending order) and is a permutation of the annotated
input. -/
theorem rank_top3_sorted_stripped (places : List Place) (intent : String)
    (scene_tags : List String) :
    rank [] intent scene_tags = [] ∧
      (rank places intent scene_tags).length ≤ 3 ∧
      List.Sorted (· ≥ ·)
        ((rank places intent scene_tags).map fun mp =>
          calculate_score mp.base intent scene_tags) ∧
      (∀ mp ∈ rank places intent scene_tags, mp.score = none ∧ mp.reason = none) ∧
      List.Sorted rankRel (sortedPlaces intent scene_tags places) ∧
      (sortedPlaces intent scene_tags places).Perm (annotate intent scene_tags places) := by
  refine ⟨rfl, ?_, ?_, ?_, List.sorted_insertionSort rankRel _,
    List.perm_insertionSort rankRel _⟩
  · by_cases h : places.isEmpty
    · simp [rank, h]
    · simp only [rank, h, if_false, List.length_map, List.length_take, Bool.false_eq_true]
      omega
  · by_cases h : places.isEmpty
    · simp [rank, h]
    · simp only [rank, h, if_false, List.map_map, Bool.false_eq_true]
      have hp : List.Pairwise rankRel ((sortedPlaces intent scene_tags places).take 3) :=
        (List.sorted_insertionSort rankRel _).sublist (List.take_sublist 3 _)
      refine List.pairwise_map.2 (hp.imp_of_mem ?_)
      intro a b ha hb hab
      have hmem := List.Sublist.subset
        (List.take_sublist 3 (sortedPlaces intent scene_tags places))
      have hsa := mem_sortedPlaces_score intent scene_tags places a (hmem ha)
      have hsb := mem_sortedPlaces_score intent scene_tags places b (hmem hb)
      rcases hab with hlt | ⟨heq, _⟩
      · rw [hsa, hsb] at hlt
        simpa using hlt.le
      · rw [hsa, hsb] at heq
        simpa using le_of_eq heq.symm
  · intro mp hmp
    by_cases h : places.isEmpty
    · simp [rank, h] at hmp
    · simp only [rank, h, if_false, List.mem_map, Bool.false_eq_true] at hmp
      obtain ⟨x, _, rfl⟩ := hmp
      exact ⟨rfl, rfl⟩

lemma rankAfter_getElem? (places : List Place) (intent : String) (scene_tags : List String)
    (hne : places.isEmpty = false) (j : ℕ) :
    (rankAfter places intent scene_tags)[j]? = (places[j]?).map fun p =>
      if j ∈ top3Idx intent scene_tags places then (⟨p, none, none⟩ : MPlace)
      else ⟨p, some (calculate_score p intent scene_tags),
        some (generate_reason p scene_tags)⟩ := by
  simp [rankAfter, hne, List.getElem?_map, List.getElem?_enum, Option.map_map]
  rfl

/-- C9: `rank` mutates its input list in place: for an input of more than 3
candidates, after the call every input dict whose position is not among the
top-3 sorted positions still carries its `"_score"` and `"_reason"` entries
(stripping touches only the first three of the sorted order), and at least
one such dict exists. -/
theorem rank_mutates_rest (places : List Place) (intent : String)
    (scene_tags : List String) (h3 : 3 < places.length) :
    (∀ (j : ℕ) (mp : MPlace), (rankAfter places intent scene_tags)[j]? = some mp →
        j ∉ top3Idx intent scene_tags places → mp.score.isSome ∧ mp.reason.isSome) ∧
      ∃ (j : ℕ) (mp : MPlace), (rankAfter places intent scene_tags)[j]? = some mp ∧
        j ∉ top3Idx intent scene_tags places ∧ mp.score.isSome ∧ mp.reason.isSome := by
  have hne : places.isEmpty = false := by
    cases places with
    | nil => simp at h3
    | cons a l => rfl
  constructor
  · intro j mp hmp hnot
    rw [rankAfter_getElem? places intent scene_tags hne j] at hmp
    cases hj : places[j]? with
    | none => rw [hj] at hmp; simp at hmp
    | some p =>
      rw [hj] at hmp
      simp only [Option.map_some', if_neg hnot, Option.some.injEq] at hmp
      rw [← hmp]
      exact ⟨rfl, rfl⟩
  · have hlen : (top3Idx intent scene_tags places).length ≤ 3 := by
      simp only [top3Idx, List.length_map, List.length_take]
      omega
    obtain ⟨j, hjlt, hjnot⟩ :
        ∃ j, j < places.length ∧ j ∉ top3Idx intent scene_tags places := by
      by_contra hcon
      push_neg at hcon
      have hsub : (List.range places.length).toFinset ⊆
          (top3Idx intent scene_tags places).toFinset := by
        intro x hx
        rw [List.mem_toFinset] at hx ⊢
        exact hcon x (List.mem_range.1 hx)
      have h1 : (List.range places.length).toFinset.card = places.length := by
        rw [List.toFinset_card_of_nodup (List.nodup_range _), List.length_range]
      have h2 := Finset.card_le_card hsub
      have h4 := List.toFinset_card_le (top3Idx intent scene_tags places)
      omega
    have hp : places[j]? = some places[j] := List.getElem?_eq_getElem hjlt
    refine ⟨j, ⟨places[j], some (calculate_score places[j] intent scene_tags),
      some (generate_reason places[j] scene_tags)⟩, ?_, hjnot, rfl, rfl⟩
    rw [rankAfter_getElem? places intent scene_tags hne j, hp]
    simp [hjnot]

/-- Four distinct candidates, used to witness the mutation behaviour of
`rank` on an input longer than 3. -/
def fourPlaces : List Place :=
  [ { name := "a", place_id := "1", type := "cafe", rating := none, user_ratings_total := 0,
      open_now := false, vicinity := "", geometry := none, distance_m := some 100 },
    { name := "b", place_id := "2", type := "park", rating := none, user_ratings_total := 0,
      open_now := false, vicinity := "", geometry := none, distance_m := some 200 },
    { name := "c", place_id := "3", type := "bar", rating := none, user_ratings_total := 0,
      open_now := false, vicinity := "", geometry := none, distance_m := some 300 },
    { name := "d", place_id := "4", type := "library", rating := none, user_ratings_total := 0,
      open_now := false, vicinity := "", geometry := none, distance_m := some 400 } ]

/-- C9 witness: on a 4-candidate input, some input dict outside the top-3
sorted positions still carries both transient entries after the call. -/
theorem rank_mutates_rest_witness :
    3 < fourPlaces.length ∧
      ∃ (j : ℕ) (mp : MPlace),
        (rankAfter fourPlaces "quiet_study" ["indoors"])[j]? = some mp ∧
          j ∉ top3Idx "quiet_study" ["indoors"] fourPlaces ∧
          mp.score.isSome ∧ mp.reason.isSome :=
  ⟨by decide, (rank_mutates_rest fourPlaces "quiet_study" ["indoors"] (by decide)).2⟩

/-- `math.radians`: degrees to radians. -/
noncomputable def radians (deg : ℝ) : ℝ := deg * Real.pi / 180

/-- `places_api.py` `haversine` (lines 12-42): great-circle distance in meters,
Earth radius 6,371,000 m, over the reals (`math.sin`/`cos`/`asin`/`sqrt`). -/
noncomputable def haversine (lat1 lng1 lat2 lng2 : ℝ) : ℝ :=
  let lat1_rad := radians lat1
  let lng1_rad := radians lng1
  let lat2_rad := radians lat2
  let lng2_rad := radians lng2
  let dlat := lat2_rad - lat1_rad
  let dlng := lng2_rad - lng1_rad
  let a := Real.sin (dlat / 2) ^ 2 +
    Real.cos lat1_rad * Real.cos lat2_rad * Real.sin (dlng / 2) ^ 2
  let c := 2 * Real.arcsin (Real.sqrt a)
  let earth_radius := 6371000
  earth_radius * c

/-- One intent's entry in `vibe_mapper.json`: its keyword list and its
place-category list. -/
structure IntentConfig where
  keywords : List String
  types : List String
  deriving DecidableEq

/-- The `vibe_mapper.json` configuration: an insertion-ordered mapping from
intent identifier to its config (Python dicts preserve insertion order, and
both `intent.py` and `places_api.py` iterate in that order). -/
abbrev VibeMapper := List (String × IntentConfig)

/-- A raw place record of a directory response, with every field optional
(each `.get` in the source supplies a default).  `location` collapses the
`geometry` sub-dictionary to its optional lat/lng pair. -/
structure RawPlace where
  name : Option String
  place_id : Option String
  rating : Option ℚ
  user_ratings_total : Option ℕ
  open_now : Option Bool
  vicinity : Option String
  location : Option (ℚ × ℚ)
  deriving DecidableEq

/-- Outcome of one nearby-search request: the request (or the processing of
its response) raised, or it produced a status string and a result list. -/
inductive ApiResponse where
  | failure
  | ok (status : String) (results : List RawPlace)
  deriving DecidableEq

/-- The `place_data` construction of `search_nearby` (lines 101-118 and
161-178): fields materialised with their `.get` defaults, a missing
`place_id` becomes `""`, and `distance_m` is `int(haversine(...))` of the
geometry when present, else the 9999 sentinel.  `distFn` abstracts
`int(haversine(lat, lng, ., .))` for the user's coordinates. -/
def mkPlace (distFn : ℚ × ℚ → ℤ) (place_type : String) (r : RawPlace) : Place :=
  { name := r.name.getD "Unknown"
    place_id := r.place_id.getD ""
    type := place_type
    rating := r.rating
    user_ratings_total := r.user_ratings_total.getD 0
    open_now := r.open_now.getD false
    vicinity := r.vicinity.getD ""
    geometry := r.location
    distance_m := some (match r.location with
      | some loc => distFn loc
      | none => 9999) }

/-- First pass of `search_nearby` (lines 74-125): one request per configured
category (the `oracle` gives the response for the request at each position),
a failed or non-`"OK"` response skips the category, and at most 3 results
per category are converted and appended. -/
def passOne (distFn : ℚ × ℚ → ℤ) (oracle : ℕ → ApiResponse) :
    ℕ → List String → List Place
  | _, [] => []
  | idx, place_type :: rest =>
    (match oracle idx with
     | .failure => []
     | .ok status results =>
       if status = "OK" then (results.take 3).map (mkPlace distFn place_type) else []) ++
      passOne distFn oracle (idx + 1) rest

/-- Inner fill loop of the second pass (lines 154-181): append converted
results one by one, stopping as soon as 6 candidates are accumulated. -/
def fillTo6 (distFn : ℚ × ℚ → ℤ) (place_type : String) :
    List RawPlace → List Place → List Place
  | [], acc => acc
  | r :: rest, acc =>
    if 6 ≤ acc.length then acc
    else fillTo6 distFn place_type rest (acc ++ [mkPlace distFn place_type r])

/-- Second pass of `search_nearby` (lines 128-185): re-issue the per-category
requests, skip each response's first 3 results (consumed by pass 1), and fill
up to 6 total candidates, breaking out once 6 are reached. -/
def passTwo (distFn : ℚ × ℚ → ℤ) (oracle : ℕ → ApiResponse) :
    ℕ → List String → List Place → List Place
  | _, [], acc => acc
  | idx, place_type :: rest, acc =>
    if 6 ≤ acc.length then acc
    else
      match oracle idx with
      | .failure => passTwo distFn oracle (idx + 1) rest acc
      | .ok status results =>
        if status = "OK" then
          passTwo distFn oracle (idx + 1) rest (fillTo6 distFn place_type (results.drop 3) acc)
        else passTwo distFn oracle (idx + 1) rest acc

/-- Final deduplication of `search_nearby` (lines 187-195): walk the
accumulated candidates, keep a place only if its `place_id` is unseen, and
break once 6 unique candidates are kept. -/
def dedupLoop : List Place → List String → List Place → List Place
  | [], _, acc => acc
  | p :: rest, seen_ids, acc =>
    if p.place_id ∈ seen_ids then dedupLoop rest seen_ids acc
    else
      let acc2 := acc ++ [p]
      if 6 ≤ acc2.length then acc2 else dedupLoop rest (p.place_id :: seen_ids) acc2

/-- First-occurrence deduplication as the spec words it ("deduplicate by
directory identifier, first occurrence wins, preserving iteration order"),
without the truncation; used to state what `dedupLoop` computes. -/
def dedupSpec : List Place → List String → List Place
  | [], _ => []
  | p :: rest, seen =>
    if p.place_id ∈ seen then dedupSpec rest seen
    else p :: dedupSpec rest (p.place_id :: seen)

/-- The two gathering passes of `search_nearby`: pass 2 runs only when pass 1
accumulated fewer than 6 candidates (line 128). -/
def gathered (distFn : ℚ × ℚ → ℤ) (o1 o2 : ℕ → ApiResponse) (cfg : IntentConfig) :
    List Place :=
  let all_places := passOne distFn o1 0 cfg.types
  if all_places.length < 6 then passTwo distFn o2 0 cfg.types all_places else all_places

/-- `places_api.py` `search_nearby` (lines 44-197).  `api_key` is the
`GOOGLE_MAPS_API_KEY` environment value; `o1`/`o2` give the directory
response for the request at each category position of the first and second
pass; `distFn` abstracts `int(haversine(lat, lng, ., .))` (the user
coordinates and radius enter only through the responses and `distFn`). -/
def search_nearby (api_key : Option String) (mapper : VibeMapper)
    (distFn : ℚ × ℚ → ℤ) (o1 o2 : ℕ → ApiResponse) (intent : String) : List Place :=
  match api_key with
  | none => []
  | some _ =>
    match List.lookup intent mapper with
    | none => []
    | some cfg => dedupLoop (gathered distFn o1 o2 cfg) [] []

/-- The candidate list accumulated by both passes of `search_nearby` before
deduplication (empty in the early-return branches). -/
def allCandidates (api_key : Option String) (mapper : VibeMapper)
    (distFn : ℚ × ℚ → ℤ) (o1 o2 : ℕ → ApiResponse) (intent : String) : List Place :=
  match api_key with
  | none => []
  | some _ =>
    match List.lookup intent mapper with
    | none => []
    | some cfg => gathered distFn o1 o2 cfg

/-- Python's substring test `needle in hay` on character lists. -/
def charsContains (n : List Char) : List Char → Bool
  | [] => n.isEmpty
  | c :: rest => n.isPrefixOf (c :: rest) || charsContains n rest

/-- Python's `needle in hay` substring operator on strings. -/
def strIn (needle hay : String) : Bool := charsContains needle.toList hay.toList

/-- Python's `str.lower()`: character-wise lowercasing (the behaviour of
`String.toLower`, stated via the character list). -/
def pyLower (s : String) : String := String.mk (s.data.map Char.toLower)

/-- Whether one intent's config has a keyword occurring in the lowered query
(the `any(keyword in query_lower for keyword in keywords)` test). -/
def keywordHit (query_lower : String) (cfg : IntentConfig) : Bool :=
  cfg.keywords.any fun keyword => strIn keyword query_lower

/-- `intent.py` `extract_intent` (lines 11-59).  `llm` is the outcome of the
optional OpenAI fallback: `none` when no `OPENAI_API_KEY` is set, the call
raises, or the response carries no `"intent"` field; `some s` when the call
returns a parsed `"intent"` field `s` (the code then accepts `s` only if it
is a configured intent). -/
def extract_intent (mapper : VibeMapper) (llm : Option String) (query : String) : String :=
  let query_lower := pyLower query
  match mapper.find? (fun e => keywordHit query_lower e.2) with
  | some e => e.1
  | none =>
    match llm with
    | some s => if (mapper.map (·.1)).contains s then s else "unclear_intent"
    | none => "unclear_intent"

/-! ### Deduplication lemmas for `search_nearby` -/

lemma dedupLoop_eq_dedupSpec :
    ∀ (l : List Place) (seen : List String) (acc : List Place), acc.length < 6 →
      dedupLoop l seen acc = acc ++ (dedupSpec l seen).take (6 - acc.length) := by
  intro l
  induction l with
  | nil => intro seen acc _; simp [dedupLoop, dedupSpec]
  | cons p rest ih =>
    intro seen acc hacc
    by_cases hmem : p.place_id ∈ seen
    · simp only [dedupLoop, dedupSpec, if_pos hmem]
      exact ih seen acc hacc
    · simp only [dedupLoop, dedupSpec, if_neg hmem]
      have hlen : (acc ++ [p]).length = acc.length + 1 := by simp
      have h6 : 6 - acc.length = (6 - (acc.length + 1)) + 1 := by omega
      rw [h6, List.take_succ_cons]
      by_cases hge : 6 ≤ (acc ++ [p]).length
      · rw [if_pos hge]
        have hz : 6 - (acc.length + 1) = 0 := by omega
        rw [hz, List.take_zero]
      · rw [if_neg hge]
        rw [ih (p.place_id :: seen) (acc ++ [p]) (by omega)]
        rw [hlen]
        simp

lemma dedupSpec_ids :
    ∀ (l : List Place) (seen : List String),
      ((dedupSpec l seen).map (fun p => p.place_id)).Nodup ∧
        ∀ p ∈ dedupSpec l seen, p.place_id ∉ seen := by
  intro l
  induction l with
  | nil => intro seen; simp [dedupSpec]
  | cons p rest ih =>
    intro seen
    by_cases hmem : p.place_id ∈ seen
    · simpa [dedupSpec, hmem] using ih seen
    · simp only [dedupSpec, if_neg hmem]
      obtain ⟨h1, h2⟩ := ih (p.place_id :: seen)
      refine ⟨?_, ?_⟩
      · rw [List.map_cons, List.nodup_cons]
        refine ⟨?_, h1⟩
        intro hmem'
        obtain ⟨q, hq, hq'⟩ := List.mem_map.1 hmem'
        exact h2 q hq (by simp [hq'])
      · intro q hq
        rcases List.mem_cons.1 hq with rfl | hq'
        · exact hmem
        · exact fun hs => h2 q hq' (List.mem_cons_of_mem _ hs)

lemma search_nearby_eq (k : Option String) (m : VibeMapper) (d : ℚ × ℚ → ℤ)
    (o1 o2 : ℕ → ApiResponse) (i : String) :
    search_nearby k m d o1 o2 i = (dedupSpec (allCandidates k m d o1 o2 i) []).take 6 := by
  unfold search_nearby allCandidates
  cases k with
  | none => simp [dedupSpec]
  | some key =>
    cases List.lookup i m with
    | none => simp [dedupSpec]
    | some cfg =>
      show dedupLoop (gathered d o1 o2 cfg) [] [] = (dedupSpec (gathered d o1 o2 cfg) []).take 6
      rw [dedupLoop_eq_dedupSpec (gathered d o1 o2 cfg) [] [] (by norm_num)]
      simp

/-- C7: for every credential, configuration, intent and sequence of directory
responses, the `search_nearby` result has at most 6 entries, no two entries
share a `place_id`, and the result is exactly the first-occurrence
deduplication (in pass/category iteration order) of the gathered candidates,
truncated to 6. -/
theorem search_nearby_le6_nodup (k : Option String) (m : VibeMapper) (d : ℚ × ℚ → ℤ)
    (o1 o2 : ℕ → ApiResponse) (i : String) :
    (search_nearby k m d o1 o2 i).length ≤ 6 ∧
      ((search_nearby k m d o1 o2 i).map (fun p => p.place_id)).Nodup ∧
      search_nearby k m d o1 o2 i = (dedupSpec (allCandidates k m d o1 o2 i) []).take 6 := by
  have he := search_nearby_eq k m d o1 o2 i
  refine ⟨?_, ?_, he⟩
  · rw [he]
    exact List.length_take_le 6 _
  · rw [he, List.map_take]
    exact ((dedupSpec_ids (allCandidates k m d o1 o2 i) []).1).sublist (List.take_sublist 6 _)

/-! ### Emptiness conditions of `search_nearby` -/

/-- A directory record with every optional field absent. -/
def emptyRaw : RawPlace := ⟨none, none, none, none, none, none, none⟩

lemma passOne_const_ok (d : ℚ × ℚ → ℤ) (r : RawPlace) :
    ∀ (idx : ℕ) (ts : List String),
      passOne d (fun _ => ApiResponse.ok "OK" [r]) idx ts = ts.map fun t => mkPlace d t r := by
  intro idx ts
  induction ts generalizing idx with
  | nil => rfl
  | cons t rest ih => simp [passOne, ih]

lemma passTwo_const_failure (d : ℚ × ℚ → ℤ) :
    ∀ (idx : ℕ) (ts : List String) (acc : List Place),
      passTwo d (fun _ => ApiResponse.failure) idx ts acc = acc := by
  intro idx ts
  induction ts generalizing idx with
  | nil => intro acc; rfl
  | cons t rest ih =>
    intro acc
    simp only [passTwo]
    split
    · rfl
    · exact ih (idx + 1) acc

/-- C4 (amended): an absent service credential and an unknown intent are the
only conditions under which `search_nearby` returns an empty list regardless
of every directory response, provided the configured category list of the
looked-up intent is non-empty (an intent configured with an empty category
list issues no requests at all and also returns `[]` unconditionally). -/
theorem search_nearby_empty_conditions (api_key : Option String) (mapper : VibeMapper)
    (distFn : ℚ × ℚ → ℤ) (intent : String)
    (htypes : ∀ cfg, List.lookup intent mapper = some cfg → cfg.types ≠ [])
    (hempty : ∀ o1 o2, search_nearby api_key mapper distFn o1 o2 intent = []) :
    api_key = none ∨ List.lookup intent mapper = none := by
  cases hk : api_key with
  | none => exact Or.inl rfl
  | some key =>
    cases hl : List.lookup intent mapper with
    | none => exact Or.inr rfl
    | some cfg =>
      exfalso
      obtain ⟨t0, ts, hts⟩ := List.exists_cons_of_ne_nil (htypes cfg hl)
      have h := hempty (fun _ => ApiResponse.ok "OK" [emptyRaw]) (fun _ => ApiResponse.failure)
      have he : search_nearby api_key mapper distFn (fun _ => ApiResponse.ok "OK" [emptyRaw])
          (fun _ => ApiResponse.failure) intent
          = dedupLoop (gathered distFn (fun _ => ApiResponse.ok "OK" [emptyRaw])
              (fun _ => ApiResponse.failure) cfg) [] [] := by
        simp [search_nearby, hk, hl]
      have hg : gathered distFn (fun _ => ApiResponse.ok "OK" [emptyRaw])
          (fun _ => ApiResponse.failure) cfg
          = cfg.types.map fun t => mkPlace distFn t emptyRaw := by
        unfold gathered
        rw [passOne_const_ok]
        dsimp only
        split
        · rw [passTwo_const_failure]
        · rfl
      rw [he, hg, hts, dedupLoop_eq_dedupSpec _ [] [] (by norm_num)] at h
      simp [dedupSpec] at h

/-- C4 witness: a present credential with an unknown intent, where the
amended disjunction is realised by the unknown-intent disjunct. -/
theorem search_nearby_empty_conditions_witness :
    (∀ o1 o2, search_nearby (some "k")
        [("quiet_study", ⟨["study"], ["cafe"]⟩)] (fun _ => 0) o1 o2 "sports" = []) ∧
      ((some "k" : Option String) = none ∨
        List.lookup "sports" [("quiet_study", (⟨["study"], ["cafe"]⟩ : IntentConfig))] = none) :=
  ⟨fun _ _ => rfl,
    search_nearby_empty_conditions (some "k") [("quiet_study", ⟨["study"], ["cafe"]⟩)]
      (fun _ => 0) "sports" (fun _ h => nomatch h) (fun _ _ => rfl)⟩

/-- C4 counterexample: the claim "an absent service credential is the only
condition returning an empty list unconditionally" is false — a present
credential with an unknown intent also returns `[]` for every directory
response. -/
theorem search_nearby_empty_not_only_credential :
    ¬ (∀ (api_key : Option String) (mapper : VibeMapper) (distFn : ℚ × ℚ → ℤ)
        (intent : String),
        (∀ o1 o2, search_nearby api_key mapper distFn o1 o2 intent = []) →
          api_key = none) := by
  intro hclaim
  have h := hclaim (some "k") [("quiet_study", ⟨["study"], ["cafe"]⟩)] (fun _ => 0) "sports"
    (fun _ _ => rfl)
  exact Option.noConfusion h

/-- C10: a directory record without a `place_id` is assigned the
empty-string identifier, and consequently at most one identifier-less
candidate survives deduplication in any `search_nearby` result. -/
theorem search_nearby_missing_id :
    (∀ (distFn : ℚ × ℚ → ℤ) (place_type : String) (r : RawPlace),
        r.place_id = none → (mkPlace distFn place_type r).place_id = "") ∧
      ∀ (k : Option String) (m : VibeMapper) (d : ℚ × ℚ → ℤ) (o1 o2 : ℕ → ApiResponse)
        (i : String),
        ((search_nearby k m d o1 o2 i).map (fun p => p.place_id)).count "" ≤ 1 := by
  constructor
  · intro d t r h
    simp [mkPlace, h]
  · intro k m d o1 o2 i
    have he := search_nearby_eq k m d o1 o2 i
    have hnd : ((search_nearby k m d o1 o2 i).map (fun p => p.place_id)).Nodup := by
      rw [he, List.map_take]
      exact ((dedupSpec_ids _ []).1).sublist (List.take_sublist 6 _)
    exact List.nodup_iff_count_le_one.1 hnd ""

/-- C10 witness: two distinct identifier-less venues in one response; both
map to `""` and at most one survives. -/
theorem search_nearby_missing_id_witness :
    (mkPlace (fun _ => 0) "cafe" emptyRaw).place_id = "" ∧
      ((search_nearby (some "k") [("quiet_study", ⟨["study"], ["cafe"]⟩)] (fun _ => 0)
            (fun _ => ApiResponse.ok "OK" [emptyRaw, { emptyRaw with name := some "Other" }])
            (fun _ => ApiResponse.failure) "quiet_study").map
          (fun p => p.place_id)).count "" ≤ 1 := by
  constructor
  · exact search_nearby_missing_id.1 (fun _ => 0) "cafe" emptyRaw rfl
  · exact search_nearby_missing_id.2 (some "k") _ _ _ _ "quiet_study"

/-! ### Intent extraction -/

lemma find?_first_hit (q : String) :
    ∀ (pre : VibeMapper) (i : String) (cfg : IntentConfig) (post : VibeMapper),
      (∀ e ∈ pre, keywordHit q e.2 = false) → keywordHit q cfg = true →
      List.find? (fun e => keywordHit q e.2) (pre ++ (i, cfg) :: post) = some (i, cfg) := by
  intro pre
  induction pre with
  | nil =>
    intro i cfg post _ hhit
    rw [List.nil_append, List.find?_cons_of_pos]
    simpa using hhit
  | cons e pre ih =>
    intro i cfg post hpre hhit
    rw [List.cons_append, List.find?_cons_of_neg]
    · exact ih i cfg post (fun x hx => hpre x (List.mem_cons_of_mem e hx)) hhit
    · simpa using hpre e (List.mem_cons_self e pre)

/-- C5: `extract_intent` lower-cases the query and returns the first intent
in configuration order having a keyword that occurs as a substring of the
lowered query — in particular, when keywords of several intents match, the
earliest configured one wins, with no scoring among matches and regardless
of any fallback outcome. -/
theorem extract_intent_first_config_match (pre post : VibeMapper) (i : String)
    (cfg : IntentConfig) (llm : Option String) (query : String)
    (hpre : ∀ e ∈ pre, keywordHit (pyLower query) e.2 = false)
    (hhit : keywordHit (pyLower query) cfg = true) :
    extract_intent (pre ++ (i, cfg) :: post) llm query = i := by
  simp only [extract_intent]
  rw [find?_first_hit (pyLower query) pre i cfg post hpre hhit]

/-- C5 witness: a query whose keywords hit both configured intents; the
first configured intent wins. -/
theorem extract_intent_first_config_match_witness :
    (∀ e ∈ ([] : VibeMapper), keywordHit (pyLower "STUDY or soccer?") e.2 = false) ∧
      keywordHit (pyLower "STUDY or soccer?") ⟨["study"], ["library"]⟩ = true ∧
      keywordHit (pyLower "STUDY or soccer?") ⟨["soccer"], ["stadium"]⟩ = true ∧
      extract_intent [("quiet_study", ⟨["study"], ["library"]⟩),
        ("sports", ⟨["soccer"], ["stadium"]⟩)] none "STUDY or soccer?" = "quiet_study" := by
  refine ⟨?_, ?_, ?_, ?_⟩
  · intro e he
    exact absurd he (List.not_mem_nil e)
  · decide
  · decide
  · exact extract_intent_first_config_match [] [("sports", ⟨["soccer"], ["stadium"]⟩)]
      "quiet_study" ⟨["study"], ["library"]⟩ none "STUDY or soccer?"
      (fun e he => absurd he (List.not_mem_nil e)) (by decide)

/-- C8: `extract_intent` always returns either a configured intent or the
fixed default `"unclear_intent"`, for every query and every outcome of the
optional external classification call. -/
theorem extract_intent_known_set (mapper : VibeMapper) (llm : Option String)
    (query : String) :
    extract_intent mapper llm query = "unclear_intent" ∨
      ∃ cfg, (extract_intent mapper llm query, cfg) ∈ mapper := by
  simp only [extract_intent]
  cases hf : List.find? (fun e => keywordHit (pyLower query) e.2) mapper with
  | some e =>
    right
    exact ⟨e.2, List.mem_of_find?_eq_some hf⟩
  | none =>
    cases llm with
    | none => left; rfl
    | some s =>
      cases hb : (mapper.map (·.1)).contains s with
      | true =>
        right
        simp only [hb, if_true]
        have hs : s ∈ mapper.map (·.1) := by simpa using hb
        obtain ⟨e, he, he1⟩ := List.mem_map.1 hs
        exact ⟨e.2, by simpa [← he1] using he⟩
      | false =>
        left
        simp only [hb]
        rfl

/-! ### Haversine distance bounds (C3) -/

lemma sin_le_self {x : ℝ} (hx : 0 ≤ x) : Real.sin x ≤ x := by
  rcases eq_or_lt_of_le hx with h | h
  · simp [← h]
  · exact (Real.sin_lt h).le

lemma arcsin_ge_self {x : ℝ} (h0 : 0 ≤ x) (h1 : x ≤ 1) : x ≤ Real.arcsin x := by
  have hs := Real.sin_arcsin (by linarith) h1
  have hnn : 0 ≤ Real.arcsin x := Real.arcsin_nonneg.2 h0
  linarith [sin_le_self hnn]

/-- Two-sided Taylor-style bound for `sin` on a rational bracket of the
argument, from Mathlib's `Real.sin_bound`. -/
lemma sin_interval {x xl xu : ℝ} (h0 : 0 ≤ xl) (hl : xl ≤ x) (hu : x ≤ xu) (h1 : xu ≤ 1) :
    xl - xu ^ 3 / 6 - xu ^ 4 * (5 / 96) ≤ Real.sin x ∧
      Real.sin x ≤ xu - xl ^ 3 / 6 + xu ^ 4 * (5 / 96) := by
  have hx0 : 0 ≤ x := le_trans h0 hl
  have hxa : |x| ≤ 1 := by rw [abs_of_nonneg hx0]; linarith
  have hb := Real.sin_bound hxa
  rw [abs_sub_le_iff] at hb
  obtain ⟨hb1, hb2⟩ := hb
  rw [abs_of_nonneg hx0] at hb1 hb2
  have hx3l : xl ^ 3 ≤ x ^ 3 := pow_le_pow_left₀ h0 hl 3
  have hx3u : x ^ 3 ≤ xu ^ 3 := pow_le_pow_left₀ hx0 hu 3
  have hx4 : x ^ 4 ≤ xu ^ 4 := pow_le_pow_left₀ hx0 hu 4
  constructor <;> linarith

lemma cos_half_sq (x : ℝ) : Real.cos x = 1 - 2 * Real.sin (x / 2) ^ 2 := by
  have h1 := Real.cos_two_mul (x / 2)
  have h2 := Real.sin_sq_add_cos_sq (x / 2)
  have h3 : 2 * (x / 2) = x := by ring
  rw [h3] at h1
  linarith

set_option maxHeartbeats 2000000 in
/-- Rigorous enclosure of the haversine distance between the two
specification points: it lies in [1416, 1418] meters (true value ≈1417.4). -/
lemma haversine_sf_bounds :
    1416 ≤ haversine 37.7749 (-122.4194) 37.7849 (-122.4094) ∧
      haversine 37.7749 (-122.4194) 37.7849 (-122.4094) ≤ 1418 := by
  have hπl : (3.141592 : ℝ) < Real.pi := Real.pi_gt_d6
  have hπu : Real.pi < 3.141593 := Real.pi_lt_d6
  have e1 : (radians 37.7849 - radians 37.7749) / 2 = Real.pi / 36000 := by
    unfold radians; ring_nf
  have e2 : (radians (-122.4094) - radians (-122.4194)) / 2 = Real.pi / 36000 := by
    unfold radians; ring_nf
  have e3 : radians 37.7749 / 2 = 37.7749 * Real.pi / 360 := by unfold radians; ring
  have e4 : radians 37.7849 / 2 = 37.7849 * Real.pi / 360 := by unfold radians; ring
  have hav_eq : haversine 37.7749 (-122.4194) 37.7849 (-122.4094) =
      6371000 * (2 * Real.arcsin (Real.sqrt
        (Real.sin (Real.pi / 36000) ^ 2 +
          Real.cos (radians 37.7749) * Real.cos (radians 37.7849) *
            Real.sin (Real.pi / 36000) ^ 2))) := by
    rw [show haversine 37.7749 (-122.4194) 37.7849 (-122.4094) =
        6371000 * (2 * Real.arcsin (Real.sqrt
          (Real.sin ((radians 37.7849 - radians 37.7749) / 2) ^ 2 +
            Real.cos (radians 37.7749) * Real.cos (radians 37.7849) *
              Real.sin ((radians (-122.4094) - radians (-122.4194)) / 2) ^ 2))) from rfl,
      e1, e2]
  set A := Real.sin (Real.pi / 36000) ^ 2 +
    Real.cos (radians 37.7749) * Real.cos (radians 37.7849) *
      Real.sin (Real.pi / 36000) ^ 2 with hA
  have hS := sin_interval (show (0:ℝ) ≤ 3.141592 / 36000 by norm_num)
    (show (3.141592:ℝ) / 36000 ≤ Real.pi / 36000 by linarith)
    (show Real.pi / 36000 ≤ 3.141593 / 36000 by linarith)
    (show (3.141593:ℝ) / 36000 ≤ 1 by norm_num)
  have hSl : (0.0000872664 : ℝ) ≤ Real.sin (Real.pi / 36000) := le_trans (by norm_num) hS.1
  have hSu : Real.sin (Real.pi / 36000) ≤ 0.0000872665 := le_trans hS.2 (by norm_num)
  have hS0 : (0:ℝ) ≤ Real.sin (Real.pi / 36000) := le_trans (by norm_num) hSl
  have hy1 := sin_interval (show (0:ℝ) ≤ 37.7749 * 3.141592 / 360 by norm_num)
    (show (37.7749:ℝ) * 3.141592 / 360 ≤ 37.7749 * Real.pi / 360 by linarith)
    (show (37.7749:ℝ) * Real.pi / 360 ≤ 37.7749 * 3.141593 / 360 by linarith)
    (show (37.7749:ℝ) * 3.141593 / 360 ≤ 1 by norm_num)
  have hs1l : (0.3230627 : ℝ) ≤ Real.sin (37.7749 * Real.pi / 360) :=
    le_trans (by norm_num) hy1.1
  have hs1u : Real.sin (37.7749 * Real.pi / 360) ≤ 0.324293 := le_trans hy1.2 (by norm_num)
  have hy2 := sin_interval (show (0:ℝ) ≤ 37.7849 * 3.141592 / 360 by norm_num)
    (show (37.7849:ℝ) * 3.141592 / 360 ≤ 37.7849 * Real.pi / 360 by linarith)
    (show (37.7849:ℝ) * Real.pi / 360 ≤ 37.7849 * 3.141593 / 360 by linarith)
    (show (37.7849:ℝ) * 3.141593 / 360 ≤ 1 by norm_num)
  have hs2l : (0.3231445 : ℝ) ≤ Real.sin (37.7849 * Real.pi / 360) :=
    le_trans (by norm_num) hy2.1
  have hs2u : Real.sin (37.7849 * Real.pi / 360) ≤ 0.3243761 := le_trans hy2.2 (by norm_num)
  have hc1 : Real.cos (radians 37.7749) = 1 - 2 * Real.sin (37.7749 * Real.pi / 360) ^ 2 := by
    rw [cos_half_sq (radians 37.7749), e3]
  have hc2 : Real.cos (radians 37.7849) = 1 - 2 * Real.sin (37.7849 * Real.pi / 360) ^ 2 := by
    rw [cos_half_sq (radians 37.7849), e4]
  have hq1l : (0.3230627:ℝ) ^ 2 ≤ Real.sin (37.7749 * Real.pi / 360) ^ 2 :=
    pow_le_pow_left₀ (by norm_num) hs1l 2
  have hq1u : Real.sin (37.7749 * Real.pi / 360) ^ 2 ≤ (0.324293:ℝ) ^ 2 :=
    pow_le_pow_left₀ (le_trans (by norm_num) hs1l) hs1u 2
  have hq2l : (0.3231445:ℝ) ^ 2 ≤ Real.sin (37.7849 * Real.pi / 360) ^ 2 :=
    pow_le_pow_left₀ (by norm_num) hs2l 2
  have hq2u : Real.sin (37.7849 * Real.pi / 360) ^ 2 ≤ (0.3243761:ℝ) ^ 2 :=
    pow_le_pow_left₀ (le_trans (by norm_num) hs2l) hs2u 2
  have hc1l : (0.7896681 : ℝ) ≤ Real.cos (radians 37.7749) := by
    rw [hc1]
    have hnum : (0.7896681:ℝ) ≤ 1 - 2 * (0.324293:ℝ) ^ 2 := by norm_num
    linarith
  have hc1u : Real.cos (radians 37.7749) ≤ 0.791261 := by
    rw [hc1]
    have hnum : (1:ℝ) - 2 * (0.3230627:ℝ) ^ 2 ≤ 0.791261 := by norm_num
    linarith
  have hc2l : (0.7895602 : ℝ) ≤ Real.cos (radians 37.7849) := by
    rw [hc2]
    have hnum : (0.7895602:ℝ) ≤ 1 - 2 * (0.3243761:ℝ) ^ 2 := by norm_num
    linarith
  have hc2u : Real.cos (radians 37.7849) ≤ 0.7911553 := by
    rw [hc2]
    have hnum : (1:ℝ) - 2 * (0.3231445:ℝ) ^ 2 ≤ 0.7911553 := by norm_num
    linarith
  have hc10 : (0:ℝ) ≤ Real.cos (radians 37.7749) := le_trans (by norm_num) hc1l
  have hc20 : (0:ℝ) ≤ Real.cos (radians 37.7849) := le_trans (by norm_num) hc2l
  have hPl : (0.7896681 : ℝ) * 0.7895602 ≤
      Real.cos (radians 37.7749) * Real.cos (radians 37.7849) :=
    mul_le_mul hc1l hc2l (by norm_num) hc10
  have hPu : Real.cos (radians 37.7749) * Real.cos (radians 37.7849) ≤
      0.791261 * 0.7911553 :=
    mul_le_mul hc1u hc2u hc20 (by norm_num)
  have hS2l : (0.0000872664:ℝ) ^ 2 ≤ Real.sin (Real.pi / 36000) ^ 2 :=
    pow_le_pow_left₀ (by norm_num) hSl 2
  have hS2u : Real.sin (Real.pi / 36000) ^ 2 ≤ (0.0000872665:ℝ) ^ 2 :=
    pow_le_pow_left₀ hS0 hSu 2
  have hTl : (0.7896681 * 0.7895602 : ℝ) * ((0.0000872664:ℝ) ^ 2) ≤
      Real.cos (radians 37.7749) * Real.cos (radians 37.7849) *
        Real.sin (Real.pi / 36000) ^ 2 :=
    mul_le_mul hPl hS2l (by norm_num) (mul_nonneg hc10 hc20)
  have hTu : Real.cos (radians 37.7749) * Real.cos (radians 37.7849) *
        Real.sin (Real.pi / 36000) ^ 2 ≤
      (0.791261 * 0.7911553 : ℝ) * ((0.0000872665:ℝ) ^ 2) :=
    mul_le_mul hPu hS2u (sq_nonneg _) (by norm_num)
  have hAl : (0.0001111915:ℝ) ^ 2 ≤ A := by
    rw [hA]
    have hnum : (0.0001111915:ℝ) ^ 2 ≤
        (0.0000872664:ℝ) ^ 2 + 0.7896681 * 0.7895602 * (0.0000872664:ℝ) ^ 2 := by norm_num
    linarith
  have hAu : A ≤ (0.000111278:ℝ) ^ 2 := by
    rw [hA]
    have hnum : (0.0000872665:ℝ) ^ 2 + 0.791261 * 0.7911553 * (0.0000872665:ℝ) ^ 2 ≤
        (0.000111278:ℝ) ^ 2 := by norm_num
    linarith
  have hA0 : (0:ℝ) ≤ A := le_trans (by norm_num) hAl
  have hsql : (0.0001111915:ℝ) ≤ Real.sqrt A := (Real.le_sqrt (by norm_num) hA0).2 hAl
  have hsqu : Real.sqrt A ≤ 0.000111278 := by
    have h := Real.sqrt_le_sqrt hAu
    rwa [Real.sqrt_sq (by norm_num : (0:ℝ) ≤ 0.000111278)] at h
  have harcl : (0.0001111915:ℝ) ≤ Real.arcsin (Real.sqrt A) :=
    le_trans hsql (arcsin_ge_self (Real.sqrt_nonneg _) (le_trans hsqu (by norm_num)))
  have hsinb : (0.000111278:ℝ) ≤ Real.sin 0.000111279 := by
    have h := (sin_interval (show (0:ℝ) ≤ 0.000111279 by norm_num) le_rfl le_rfl
      (by norm_num)).1
    have hnum : (0.000111278:ℝ) ≤
        0.000111279 - (0.000111279:ℝ) ^ 3 / 6 - (0.000111279:ℝ) ^ 4 * (5 / 96) := by norm_num
    linarith
  have harcu : Real.arcsin (Real.sqrt A) ≤ 0.000111279 := by
    have hx : Real.sqrt A ∈ Set.Icc (-1:ℝ) 1 :=
      Set.mem_Icc.mpr ⟨by linarith [Real.sqrt_nonneg A], by linarith⟩
    have hy : (0.000111279:ℝ) ∈ Set.Icc (-(Real.pi / 2)) (Real.pi / 2) :=
      Set.mem_Icc.mpr ⟨by linarith, by linarith⟩
    exact (Real.arcsin_le_iff_le_sin hx hy).2 (le_trans hsqu hsinb)
  constructor
  · rw [hav_eq]
    linarith
  · rw [hav_eq]
    linarith

/-- C3 counterexample: the haversine distance between (37.7749, -122.4194)
and (37.7849, -122.4094) is greater than 1400 m (≈1417.4 m), so it does not
lie between 1000 and 1400 meters as claimed. -/
theorem haversine_sf_not_in_1000_1400 :
    ¬ (1000 ≤ haversine 37.7749 (-122.4194) 37.7849 (-122.4094) ∧
        haversine 37.7749 (-122.4194) 37.7849 (-122.4094) ≤ 1400) := by
  intro h
  have hb := haversine_sf_bounds.1
  linarith [h.2]

/-- C3 (amended): the haversine distance (Earth radius 6,371,000 m) between
(37.7749, -122.4194) and (37.7849, -122.4094) lies between 1000 and 1450
meters. -/
theorem haversine_sf_in_1000_1450 :
    1000 ≤ haversine 37.7749 (-122.4194) 37.7849 (-122.4094) ∧
      haversine 37.7749 (-122.4194) 37.7849 (-122.4094) ≤ 1450 := by
  have hb := haversine_sf_bounds
  exact ⟨by linarith [hb.1], by linarith [hb.2]⟩

end WhereTo
